import Mathlib

/-!
Verification of the markdown-to-dev.to publishing action (src/index.js).

The development shallowly embeds the two components of the program:

* the article mapper inside the function publishToDevTo, which turns parsed
  front-matter plus the document body into the article payload sent to the
  API, with JS-truthiness fallback chains and empty-field pruning;
* the orchestrator function run, which discovers markdown files, invokes
  publishToDevTo per file, paces real submissions, and aggregates results.

JavaScript values appearing in front matter are modelled by the inductive
type JVal; JS truthiness and the or-else operator are modelled explicitly.
External collaborators (filesystem, HTTP client) are an explicit
environment record, and observable side effects (logging, delays, network
calls, action outputs) are an event trace.
-/

namespace DevTo

/-- A JavaScript value as it can appear in parsed YAML front matter:
strings, numbers (modelled as integers), booleans, and arrays. -/
inductive JVal where
  | str (s : String)
  | num (n : Int)
  | bool (b : Bool)
  | arr (xs : List JVal)
deriving Repr

/-- JS truthiness of a value: empty strings, the number 0 and false are
falsy; arrays (even empty) are objects and hence truthy. -/
def truthyVal : JVal → Bool
  | .str s => s ≠ ""
  | .num n => n ≠ 0
  | .bool b => b
  | .arr _ => true

/-- Truthiness of a possibly-absent value: an absent key is undefined,
which is falsy. -/
def truthyOpt : Option JVal → Bool
  | none => false
  | some v => truthyVal v

/-- The JS expression a or-else b where a is a possibly-absent front-matter
value and b the fallback: a wins exactly when it is truthy. -/
def jsOr (a : Option JVal) (b : JVal) : JVal :=
  match a with
  | none => b
  | some v => if truthyVal v then v else b

/-- The JS expression b or-else x where b is a genuine boolean (the
forcePublished flag): true short-circuits to the boolean true. -/
def jsOrB (b : Bool) (x : JVal) : JVal :=
  if b then .bool true else x

/-- Parsed front matter: the keys the program reads, each optional
(gray-matter yields an open map; absent key is undefined). -/
structure FrontMatter where
  title : Option JVal := none
  published : Option JVal := none
  tags : Option JVal := none
  description : Option JVal := none
  canonical_url : Option JVal := none
  cover_image : Option JVal := none
  main_image : Option JVal := none
  series : Option JVal := none
  organization_id : Option JVal := none
  organization : Option JVal := none
  created_at : Option JVal := none
  date : Option JVal := none
  edited_at : Option JVal := none
  updated : Option JVal := none
deriving Repr

/-- Last path component, as path.basename: the characters after the last
slash. -/
def basename (p : String) : String :=
  String.mk (p.data.foldl (fun acc c => if c = '/' then [] else acc ++ [c]) [])

/-- Extension stripping of path.basename(p, ".md"): the suffix ".md" is
removed unless the whole basename is ".md" (Node keeps a basename that
equals the extension). Stated over the character list of the string. -/
def stripMd (s : String) : String :=
  if 3 < s.data.length ∧ s.data.drop (s.data.length - 3) = ['.', 'm', 'd'] then
    String.mk (s.data.take (s.data.length - 3))
  else s

/-- The regex replace of every hyphen by a space. -/
def hyphenToSpace (s : String) : String :=
  String.mk (s.data.map (fun c => if c = '-' then ' ' else c))

/-- A word character in the sense of the regex backslash-w:
ASCII letters, digits and underscore. -/
def isWordChar (c : Char) : Bool :=
  c.isAlphanum || c = '_'

/-- Uppercasing pass for the word-boundary regex: a word character whose
predecessor is not a word character (or that starts the string) is
uppercased. The boolean argument records whether the previous character
was a word character. -/
def capWordsChars : Bool → List Char → List Char
  | _, [] => []
  | prevW, c :: cs =>
    (if !prevW && isWordChar c then c.toUpper else c) :: capWordsChars (isWordChar c) cs

/-- Uppercase the first letter of each word, as replace of
word-boundary-then-word-char with toUpperCase. -/
def capitalizeWords (s : String) : String :=
  String.mk (capWordsChars false s.data)

/-- Title derived from the file path when front matter has no truthy
title: basename with .md stripped, hyphens to spaces, first letter of each
word uppercased. -/
def deriveTitle (filePath : String) : String :=
  capitalizeWords (hyphenToSpace (stripMd (basename filePath)))

/-- The article object as constructed in publishToDevTo before pruning:
an ordered list of field-name and value pairs, one entry per assignment in
the object literal of the source. -/
def buildArticle (fm : FrontMatter) (content : String) (filePath : String)
    (forcePublished : Bool) : List (String × JVal) :=
  [("title", jsOr fm.title (.str (deriveTitle filePath))),
   ("body_markdown", .str content),
   ("published", jsOrB forcePublished (jsOr fm.published (.bool false))),
   ("tags", jsOr fm.tags (.arr [])),
   ("description", jsOr fm.description (.str "")),
   ("canonical_url", jsOr fm.canonical_url (.str "")),
   ("main_image", jsOr fm.cover_image (jsOr fm.main_image (.str ""))),
   ("series", jsOr fm.series (.str "")),
   ("organization_id", jsOr fm.organization_id (jsOr fm.organization (.str ""))),
   ("created_at", jsOr fm.created_at (jsOr fm.date (.str ""))),
   ("edited_at", jsOr fm.edited_at (jsOr fm.updated (.str "")))]

/-- The pruning test of the source: a value is deleted exactly when it is
the empty string or an array of length zero. -/
def isEmptyVal : JVal → Bool
  | .str s => s == ""
  | .arr xs => xs.length == 0
  | _ => false

/-- Removal of empty fields: keep exactly the entries whose value is not
an empty string or empty array. -/
def pruneFields (art : List (String × JVal)) : List (String × JVal) :=
  art.filter (fun kv => !isEmptyVal kv.2)

/-- An article payload or result object: ordered field-name and value
pairs. -/
abbrev ArticleObj := List (String × JVal)

/-- The fields read from a successful API response. -/
structure ApiResponse where
  url : JVal
  title : JVal
  id : JVal
  published : JVal

/-- Observable effects of a run, in order of occurrence. Log decorations
(emoji) are dropped; the message parts the program interpolates are kept. -/
inductive Event where
  | info (msg : String)
  | warning (msg : String)
  | errorLog (msg : String)
  | httpPost (article : ArticleObj)
  | delay (ms : Nat)
  | setOutputCount (n : Nat)
  | setOutputArticles (objs : List ArticleObj)
  | setFailed (msg : String)

/-- External collaborators: the filesystem (existence check, recursive
listing, file read combined with front-matter parsing, either of which can
fail) and the HTTP client (post of an article, failing on network errors
or non-2xx responses with the extracted error message). -/
structure Env where
  dirExists : String → Bool
  listing : String → List String
  readFile : String → Except String (FrontMatter × String)
  httpPost : ArticleObj → Except String ApiResponse

/-- One publishToDevTo call: read and parse the file, build and prune the
article, then either return the dry-run placeholder result without
touching the network, or post the article and return the response fields.
Any failure is caught, logged with the file basename and the extracted
message, and rethrown as an error result. -/
def publishToDevTo (env : Env) (filePath : String) (forcePublished dryRun : Bool) :
    Except String ArticleObj × List Event :=
  match env.readFile filePath with
  | .error msg =>
    (.error ("Failed to publish " ++ basename filePath ++ ": " ++ msg),
     [.errorLog ("Failed to publish " ++ basename filePath ++ ": " ++ msg)])
  | .ok (fm, content) =>
    let title := jsOr fm.title (.str (deriveTitle filePath))
    let article := pruneFields (buildArticle fm content filePath forcePublished)
    if dryRun then
      (.ok [("url", .str "dry-run-url"), ("title", title), ("id", .str "dry-run")],
       [.info "DRY RUN Would publish", .info "DRY RUN Article data"])
    else
      match env.httpPost article with
      | .error msg =>
        (.error ("Failed to publish " ++ basename filePath ++ ": " ++ msg),
         [.httpPost article,
          .errorLog ("Failed to publish " ++ basename filePath ++ ": " ++ msg)])
      | .ok resp =>
        (.ok [("url", resp.url), ("title", resp.title), ("id", resp.id),
              ("published", resp.published)],
         [.httpPost article, .info "Successfully published", .info "Article URL"])

/-- One iteration of the publishing loop body: publish the file; on
success record the result and, outside dry-run, delay 1000ms when the
file's index in the full list is not the last index; on failure log and
record nothing. -/
def fileStep (env : Env) (allFiles : List String) (forcePublished dryRun : Bool)
    (file : String) : Option ArticleObj × List Event :=
  match publishToDevTo env file forcePublished dryRun with
  | (.ok obj, evs) =>
    (some obj,
     evs ++ if !dryRun && allFiles.indexOf file < allFiles.length - 1 then
       [.delay 1000] else [])
  | (.error msg, evs) =>
    (none, evs ++ [.errorLog ("Skipping " ++ file ++ " due to error: " ++ msg)])

/-- The publishing loop over the remaining files, carrying the full
discovered list for the index-based pacing test of the source. -/
def runLoop (env : Env) (allFiles : List String) (forcePublished dryRun : Bool) :
    List String → List ArticleObj × List Event
  | [] => ([], [])
  | f :: rest =>
    let step := fileStep env allFiles forcePublished dryRun f
    let restR := runLoop env allFiles forcePublished dryRun rest
    (step.1.toList ++ restR.1, step.2 ++ restR.2)

/-- Validated action configuration, as sourced by the input collaborator:
the credential is absent when the required input was not supplied. -/
structure Config where
  apiKey : Option String
  postsDirectory : String
  forcePublished : Bool
  dryRun : Bool

/-- The aggregated outcome of a run: the published-count output, the
article list output, and the event trace. -/
structure RunReport where
  publishedCount : Nat
  articles : List ArticleObj
  events : List Event

/-- The endsWith ".md" filter test, stated over the character list. -/
def endsWithMd (f : String) : Bool :=
  f.data.drop (f.data.length - 3) == ['.', 'm', 'd']

/-- Discovery: the recursive listing filtered to markdown files, each
joined onto the posts directory. -/
def mdFiles (env : Env) (dir : String) : List String :=
  ((env.listing dir).filter (fun f => endsWithMd f)).map (fun f => dir ++ "/" ++ f)

/-- The top-level run: missing credential is fatal; a missing directory or
an empty discovery short-circuits with zero-count outputs; otherwise the
loop runs and the aggregated results are emitted. -/
def runAction (env : Env) (cfg : Config) : RunReport :=
  match cfg.apiKey with
  | none => ⟨0, [], [.setFailed "Action failed: Input required and not supplied: api-key"]⟩
  | some _ =>
    if env.dirExists cfg.postsDirectory then
      let files := mdFiles env cfg.postsDirectory
      if files.isEmpty then
        ⟨0, [],
         [.info ("Looking for markdown files in: " ++ cfg.postsDirectory),
          .info "No markdown files found", .setOutputCount 0, .setOutputArticles []]⟩
      else
        let r := runLoop env files cfg.forcePublished cfg.dryRun files
        ⟨r.1.length, r.1,
         [.info ("Looking for markdown files in: " ++ cfg.postsDirectory),
          .info "Found markdown files"] ++ r.2 ++
         [.info "Successfully processed articles",
          .setOutputCount r.1.length, .setOutputArticles r.1]⟩
    else
      ⟨0, [],
       [.info ("Looking for markdown files in: " ++ cfg.postsDirectory),
        .warning ("Posts directory " ++ cfg.postsDirectory ++ " not found"),
        .setOutputCount 0, .setOutputArticles []]⟩

/-- Front-matter published flag read as a boolean: true exactly when the
key holds the boolean true. -/
def fmPublishedB (fm : FrontMatter) : Bool :=
  match fm.published with
  | some (.bool b) => b
  | _ => false

/-- Front matter with organization_id equal to the number 0 and
organization equal to 5, the probe for JS-truthiness fallback. -/
def fmOrgZero : FrontMatter :=
  { organization_id := some (.num 0), organization := some (.num 5) }

/-- Environment with three markdown files of which the second fails to
read, and a remote that accepts every post. -/
def sampleEnv : Env where
  dirExists := fun _ => true
  listing := fun _ => ["alpha.md", "beta.md", "gamma.md"]
  readFile := fun f =>
    if f = "posts/beta.md" then .error "ENOENT: no such file"
    else .ok ({}, "hello world")
  httpPost := fun _ =>
    .ok ⟨.str "https://dev.to/u/a-1", .str "Remote Title", .num 41, .bool true⟩

/-- Configuration for a real (non-dry-run) batch over sampleEnv. -/
def sampleCfg : Config := ⟨some "secret", "posts", false, false⟩

/-- Environment with a single readable markdown file and a remote that is
never reachable. -/
def dryEnv : Env where
  dirExists := fun _ => true
  listing := fun _ => ["alpha.md"]
  readFile := fun _ => .ok ({}, "hello")
  httpPost := fun _ => .error "unreachable"

/-- Configuration with the dry-run flag set. -/
def dryCfg : Config := ⟨some "secret", "posts", false, true⟩

/-- Environment whose posts directory does not exist. -/
def noDirEnv : Env where
  dirExists := fun _ => false
  listing := fun _ => []
  readFile := fun _ => .error "ENOENT"
  httpPost := fun _ => .error "unreachable"

/-- Environment whose posts directory exists but holds no markdown
files. -/
def mtDirEnv : Env where
  dirExists := fun _ => true
  listing := fun _ => ["notes.txt"]
  readFile := fun _ => .error "ENOENT"
  httpPost := fun _ => .error "unreachable"

/-- Plain configuration used with the short-circuit environments. -/
def plainCfg : Config := ⟨some "secret", "posts", false, false⟩

/-- A lookup that finds a non-empty value still finds it after pruning:
pruning keeps relative order and only deletes empty-valued entries. -/
theorem lookup_pruneFields {l : List (String × JVal)} {k : String} {v : JVal}
    (hl : l.lookup k = some v) (hv : isEmptyVal v = false) :
    (pruneFields l).lookup k = some v := by
  induction l with
  | nil => simp at hl
  | cons a t ih =>
    obtain ⟨ak, av⟩ := a
    rw [List.lookup_cons] at hl
    by_cases hk : k == ak
    · simp only [hk] at hl
      injection hl with hv2
      subst hv2
      simp [pruneFields, List.filter_cons, hv, List.lookup_cons, hk]
    · simp only [Bool.not_eq_true] at hk
      rw [hk] at hl
      have h2 := ih hl
      by_cases he : isEmptyVal av
      · simpa [pruneFields, List.filter_cons, he] using h2
      · simp only [Bool.not_eq_true] at he
        simpa [pruneFields, List.filter_cons, he, List.lookup_cons, hk] using h2

/-- C1: after pruning, no payload field holds an empty string or an empty
sequence, and pruning removes exactly those fields — an entry of the
constructed article survives iff its value is not empty, and boolean
values (including false) and numeric values (including 0) always survive,
for every front-matter input. -/
theorem prune_removes_exactly_empty (fm : FrontMatter) (content filePath : String)
    (fp : Bool) :
    (∀ kv ∈ pruneFields (buildArticle fm content filePath fp), isEmptyVal kv.2 = false)
    ∧ (∀ kv ∈ buildArticle fm content filePath fp,
        (kv ∈ pruneFields (buildArticle fm content filePath fp) ↔ isEmptyVal kv.2 = false))
    ∧ (∀ (k : String) (b : Bool), (k, JVal.bool b) ∈ buildArticle fm content filePath fp →
        (k, JVal.bool b) ∈ pruneFields (buildArticle fm content filePath fp))
    ∧ (∀ (k : String) (n : Int), (k, JVal.num n) ∈ buildArticle fm content filePath fp →
        (k, JVal.num n) ∈ pruneFields (buildArticle fm content filePath fp)) := by
  refine ⟨?_, ?_, ?_, ?_⟩
  · intro kv h
    rw [pruneFields, List.mem_filter] at h
    simpa using h.2
  · intro kv h
    rw [pruneFields, List.mem_filter]
    constructor
    · rintro ⟨-, h2⟩
      simpa using h2
    · intro h2
      exact ⟨h, by simp [h2]⟩
  · intro k b h
    rw [pruneFields, List.mem_filter]
    exact ⟨h, by simp [isEmptyVal]⟩
  · intro k n h
    rw [pruneFields, List.mem_filter]
    exact ⟨h, by simp [isEmptyVal]⟩

/-- C1 witness: in a concrete build with empty front matter, the pruned
payload still carries the published field with value false. -/
theorem prune_removes_exactly_empty_witness :
    ("published", JVal.bool false) ∈ pruneFields (buildArticle {} "hello" "a.md" false) :=
  (prune_removes_exactly_empty {} "hello" "a.md" false).2.2.1 "published" false
    (by simp [buildArticle, jsOr, jsOrB])

/-- C2 counterexample: with front-matter organization_id 0 and
organization 5, the payload's organization_id is the fallback 5 and not
the present value 0 — the claim's present-and-non-empty rule fails at 0. -/
theorem orgid_zero_falls_through_cex :
    (pruneFields (buildArticle fmOrgZero "body" "post.md" false)).lookup "organization_id"
      = some (JVal.num 5)
    ∧ (pruneFields (buildArticle fmOrgZero "body" "post.md" false)).lookup "organization_id"
      ≠ some (JVal.num 0) := by
  have h1 : (pruneFields (buildArticle fmOrgZero "body" "post.md" false)).lookup
      "organization_id" = some (JVal.num 5) := by rfl
  exact ⟨h1, by rw [h1]; simp⟩

/-- C2 amended: each payload field is resolved by its fallback chain with
the first JS-truthy source winning; in particular, whenever front-matter
organization_id holds a truthy, non-empty value, the payload's
organization_id is exactly that value (0 is falsy and falls through to
the organization fallback). -/
theorem orgid_truthy_wins (fm : FrontMatter) (content filePath : String) (fp : Bool)
    (v : JVal) (h1 : fm.organization_id = some v) (h2 : truthyVal v = true)
    (h3 : isEmptyVal v = false) :
    (pruneFields (buildArticle fm content filePath fp)).lookup "organization_id"
      = some v := by
  have hb : (buildArticle fm content filePath fp).lookup "organization_id"
      = some (jsOr fm.organization_id (jsOr fm.organization (JVal.str ""))) := rfl
  rw [h1] at hb
  simp only [jsOr, h2, if_true] at hb
  exact lookup_pruneFields hb h3

/-- C2 amended witness: organization_id 12345 in front matter lands
unchanged in the pruned payload. -/
theorem orgid_truthy_wins_witness :
    (pruneFields (buildArticle { organization_id := some (JVal.num 12345) }
        "body" "post.md" false)).lookup "organization_id" = some (JVal.num 12345) :=
  orgid_truthy_wins { organization_id := some (JVal.num 12345) } "body" "post.md" false
    (JVal.num 12345) rfl (by decide) rfl

/-- C3: for boolean-or-absent front-matter published, the payload's
published field is the logical OR of the override flag and the
front-matter flag (absent reads as false): override true wins, override
false does not suppress a true front-matter value, and both false or
absent yield false. -/
theorem published_is_or (fp : Bool) (fm : FrontMatter) (content filePath : String)
    (h : fm.published = none ∨ ∃ b, fm.published = some (JVal.bool b)) :
    (pruneFields (buildArticle fm content filePath fp)).lookup "published"
      = some (JVal.bool (fp || fmPublishedB fm)) := by
  have hb : (buildArticle fm content filePath fp).lookup "published"
      = some (jsOrB fp (jsOr fm.published (JVal.bool false))) := rfl
  refine lookup_pruneFields ?_ rfl
  rw [hb]
  rcases h with h | ⟨b, h⟩
  · cases fp <;> simp [jsOrB, jsOr, fmPublishedB, h]
  · cases fp <;> cases b <;> simp [jsOrB, jsOr, truthyVal, fmPublishedB, h]

/-- C3 witness: override false with front-matter published true yields a
payload published value of true. -/
theorem published_is_or_witness :
    (pruneFields (buildArticle { published := some (JVal.bool true) } "b" "f.md"
        false)).lookup "published" = some (JVal.bool true) := by
  have h := published_is_or false { published := some (JVal.bool true) } "b" "f.md"
    (Or.inr ⟨true, rfl⟩)
  simpa [fmPublishedB] using h

/-- C6: when front matter has no title, the payload title is the title
derived from the file name — extension stripped, hyphens to spaces, first
letter of each word uppercased — and the transform handles hyphen-free
names and consecutive hyphens; my-awesome-article.md derives
My Awesome Article. -/
theorem title_derived_from_filename (fm : FrontMatter) (content filePath : String)
    (fp : Bool) (h : fm.title = none) (h2 : deriveTitle filePath ≠ "") :
    (pruneFields (buildArticle fm content filePath fp)).lookup "title"
      = some (JVal.str (deriveTitle filePath))
    ∧ deriveTitle "my-awesome-article.md" = "My Awesome Article"
    ∧ deriveTitle "single.md" = "Single"
    ∧ deriveTitle "a--b-c.md" = "A  B C" := by
  refine ⟨?_, by rfl, by rfl, by rfl⟩
  have hb : (buildArticle fm content filePath fp).lookup "title"
      = some (jsOr fm.title (JVal.str (deriveTitle filePath))) := rfl
  rw [h] at hb
  refine lookup_pruneFields (by rw [hb]; rfl) ?_
  simp only [isEmptyVal, beq_eq_false_iff_ne, ne_eq]
  exact h2

/-- C6 witness: the pruned payload of my-awesome-article.md with titleless
front matter carries the derived title. -/
theorem title_derived_from_filename_witness :
    (pruneFields (buildArticle {} "body" "my-awesome-article.md" false)).lookup "title"
      = some (JVal.str (deriveTitle "my-awesome-article.md")) :=
  (title_derived_from_filename {} "body" "my-awesome-article.md" false rfl (by decide)).1

/-- C10: a front-matter title that is falsy (absent, empty string, 0 or
false) is treated as absent — the constructed article's title is the
filename-derived title; presence is decided by truthiness, not key
existence. -/
theorem title_truthiness (fm : FrontMatter) (content filePath : String) (fp : Bool)
    (h : truthyOpt fm.title = false) :
    (buildArticle fm content filePath fp).lookup "title"
      = some (JVal.str (deriveTitle filePath)) := by
  have hb : (buildArticle fm content filePath fp).lookup "title"
      = some (jsOr fm.title (JVal.str (deriveTitle filePath))) := rfl
  rw [hb]
  cases hfm : fm.title with
  | none => rfl
  | some v =>
    rw [hfm] at h
    have hv : truthyVal v = false := h
    simp [jsOr, hv]

/-- C10 witness: a title key bound to the empty string falls back to the
derived title. -/
theorem title_truthiness_witness :
    (buildArticle { title := some (JVal.str "") } "b" "my-post.md" false).lookup "title"
      = some (JVal.str (deriveTitle "my-post.md")) :=
  title_truthiness { title := some (JVal.str "") } "b" "my-post.md" false (by decide)

/-- The recorded result of one loop iteration is the Option view of the
per-file publish outcome. -/
theorem fileStep_fst (env : Env) (allFiles : List String) (fp dr : Bool) (f : String) :
    (fileStep env allFiles fp dr f).1 = ((publishToDevTo env f fp dr).1).toOption := by
  rcases h : publishToDevTo env f fp dr with ⟨r, evs⟩
  cases r with
  | ok obj => simp [fileStep, h, Except.toOption]
  | error msg => simp [fileStep, h, Except.toOption]

/-- The accumulated article list of the loop is exactly the non-failed
publish outcomes of the processed files, in order. -/
theorem runLoop_fst_eq (env : Env) (allFiles : List String) (fp dr : Bool)
    (files : List String) :
    (runLoop env allFiles fp dr files).1
      = files.filterMap (fun f => ((publishToDevTo env f fp dr).1).toOption) := by
  induction files with
  | nil => rfl
  | cons f rest ih =>
    have hs := fileStep_fst env allFiles fp dr f
    cases h : (publishToDevTo env f fp dr).1 with
    | ok obj =>
      rw [h] at hs
      simp [runLoop, List.filterMap_cons, h, hs, Except.toOption, ih]
    | error msg =>
      rw [h] at hs
      simp [runLoop, List.filterMap_cons, h, hs, Except.toOption, ih]

/-- Every article collected by the loop is the successful outcome of some
processed file. -/
theorem runLoop_mem_ok {env : Env} {allFiles : List String} {fp dr : Bool}
    {files : List String} {obj : ArticleObj}
    (h : obj ∈ (runLoop env allFiles fp dr files).1) :
    ∃ f ∈ files, (publishToDevTo env f fp dr).1 = Except.ok obj := by
  rw [runLoop_fst_eq] at h
  rcases List.mem_filterMap.1 h with ⟨f, hf, hok⟩
  refine ⟨f, hf, ?_⟩
  cases he : (publishToDevTo env f fp dr).1 with
  | error e =>
    rw [he] at hok
    exact Option.noConfusion hok
  | ok a =>
    rw [he] at hok
    rw [Option.some.inj hok]

/-- A successful publish result is either the dry-run placeholder object
or the four response fields of the remote API. -/
theorem publish_ok_shape {env : Env} {f : String} {fp dr : Bool} {obj : ArticleObj}
    (h : (publishToDevTo env f fp dr).1 = Except.ok obj) :
    (dr = true ∧ ∃ t, obj = [("url", JVal.str "dry-run-url"), ("title", t),
        ("id", JVal.str "dry-run")])
    ∨ (dr = false ∧ ∃ resp : ApiResponse, obj = [("url", resp.url), ("title", resp.title),
        ("id", resp.id), ("published", resp.published)]) := by
  cases hr : env.readFile f with
  | error e =>
    rw [publishToDevTo.eq_def, hr] at h
    simp at h
  | ok p =>
    obtain ⟨fm, content⟩ := p
    rw [publishToDevTo.eq_def, hr] at h
    cases dr with
    | true =>
      simp at h
      exact Or.inl ⟨rfl, ⟨_, h.symm⟩⟩
    | false =>
      cases hp : env.httpPost (pruneFields (buildArticle fm content f fp)) with
      | error e =>
        simp [hp] at h
      | ok resp =>
        simp [hp] at h
        exact Or.inr ⟨rfl, ⟨resp, h.symm⟩⟩

/-- The per-file publish call itself never emits a pacing delay event. -/
theorem publish_no_delay (env : Env) (f : String) (fp dr : Bool) (ms : Nat) :
    Event.delay ms ∉ (publishToDevTo env f fp dr).2 := by
  cases hr : env.readFile f with
  | error e => simp [publishToDevTo, hr]
  | ok p =>
    obtain ⟨fm, content⟩ := p
    cases dr with
    | true => simp [publishToDevTo, hr]
    | false =>
      cases hp : env.httpPost (pruneFields (buildArticle fm content f fp)) with
      | error e => simp [publishToDevTo, hr, hp]
      | ok resp => simp [publishToDevTo, hr, hp]

/-- C4: a failure while publishing one file is logged with the file name
and extracted message and does not abort the batch — the loop's article
list is exactly the non-failed results in order, the published-count
output equals its length, and the sample batch with one failing and two
succeeding files yields published-count 2. -/
theorem batch_failures_isolated (env : Env) (allFiles : List String) (fp dr : Bool)
    (files : List String) :
    (runLoop env allFiles fp dr files).1
      = files.filterMap (fun f => ((publishToDevTo env f fp dr).1).toOption)
    ∧ (∀ f ∈ files, ∀ msg, (publishToDevTo env f fp dr).1 = Except.error msg →
        Event.errorLog ("Skipping " ++ f ++ " due to error: " ++ msg)
          ∈ (runLoop env allFiles fp dr files).2)
    ∧ (∀ cfg : Config,
        (runAction env cfg).publishedCount = (runAction env cfg).articles.length)
    ∧ (runAction sampleEnv sampleCfg).publishedCount = 2 := by
  refine ⟨runLoop_fst_eq env allFiles fp dr files, ?_, ?_, by rfl⟩
  · induction files with
    | nil =>
      intro f hf
      simp at hf
    | cons g rest ih =>
      intro f hf msg hmsg
      rw [List.mem_cons] at hf
      rcases hf with rfl | hf
      · rcases hpair : publishToDevTo env f fp dr with ⟨r, evs⟩
        rw [hpair] at hmsg
        simp only at hmsg
        subst hmsg
        simp [runLoop, fileStep, hpair]
      · have hmem := ih f hf msg hmsg
        simp only [runLoop, List.mem_append]
        exact Or.inr hmem
  · intro cfg
    cases hk : cfg.apiKey with
    | none => simp [runAction, hk]
    | some k =>
      by_cases hd : env.dirExists cfg.postsDirectory
      · by_cases hmt : (mdFiles env cfg.postsDirectory).isEmpty
        · simp [runAction, hk, hd, hmt]
        · simp [runAction, hk, hd, hmt]
      · simp [runAction, hk, hd]

/-- C4 witness: in the sample batch, the failing second file is logged
with its name and the extracted message inside the loop trace. -/
theorem batch_failures_isolated_witness :
    Event.errorLog
        "Skipping posts/beta.md due to error: Failed to publish beta.md: ENOENT: no such file"
      ∈ (runLoop sampleEnv ["posts/alpha.md", "posts/beta.md", "posts/gamma.md"] false false
          ["posts/alpha.md", "posts/beta.md", "posts/gamma.md"]).2 :=
  (batch_failures_isolated sampleEnv ["posts/alpha.md", "posts/beta.md", "posts/gamma.md"]
      false false ["posts/alpha.md", "posts/beta.md", "posts/gamma.md"]).2.1
    "posts/beta.md" (by simp) "Failed to publish beta.md: ENOENT: no such file" (by rfl)

/-- C5: in dry-run mode the HTTP collaborator is never invoked — no
network event appears in the per-file trace, whatever the read outcome —
and when the file reads successfully the returned result carries the
placeholder url dry-run-url and id dry-run together with the real
computed title. -/
theorem dry_run_offline (env : Env) (filePath : String) (fp : Bool) :
    (∀ a, Event.httpPost a ∉ (publishToDevTo env filePath fp true).2)
    ∧ (∀ fm content, env.readFile filePath = Except.ok (fm, content) →
        (publishToDevTo env filePath fp true).1
          = Except.ok [("url", JVal.str "dry-run-url"),
              ("title", jsOr fm.title (JVal.str (deriveTitle filePath))),
              ("id", JVal.str "dry-run")]) := by
  constructor
  · intro a
    cases hr : env.readFile filePath with
    | error e => simp [publishToDevTo, hr]
    | ok p =>
      obtain ⟨fm, content⟩ := p
      simp [publishToDevTo, hr]
  · intro fm content hr
    simp [publishToDevTo, hr]

/-- C5 witness: the dry-run result for a concrete titleless file carries
the placeholders and the filename-derived title. -/
theorem dry_run_offline_witness :
    (publishToDevTo dryEnv "posts/alpha.md" false true).1
      = Except.ok [("url", JVal.str "dry-run-url"), ("title", JVal.str "Alpha"),
          ("id", JVal.str "dry-run")] :=
  ((dry_run_offline dryEnv "posts/alpha.md" false).2 {} "hello" rfl).trans (by rfl)

/-- Position of an element of a duplicate-free list is below the last
index exactly when the element is not the final one. -/
theorem indexOf_lt_iff_mem_dropLast :
    ∀ (l : List String), l.Nodup → ∀ f ∈ l, (l.indexOf f < l.length - 1 ↔ f ∈ l.dropLast)
  | [], _, f, hf => absurd hf (List.not_mem_nil f)
  | [a], _, f, hf => by
    rw [List.mem_singleton] at hf
    subst hf
    simp [List.indexOf_cons]
  | a :: b :: t, hnd, f, hf => by
    have hna : a ∉ b :: t := (List.nodup_cons.1 hnd).1
    have hnd2 : (b :: t).Nodup := (List.nodup_cons.1 hnd).2
    rw [List.mem_cons] at hf
    rcases hf with rfl | hf
    · constructor
      · intro _
        rw [List.dropLast_cons₂]
        exact List.mem_cons_self f (b :: t).dropLast
      · intro _
        rw [List.indexOf_cons, beq_self_eq_true]
        simp
    · have hfa : f ≠ a := fun he => hna (he ▸ hf)
      have hab : (a == f) = false := by
        rw [beq_eq_false_iff_ne]
        exact fun he => hna (he ▸ hf)
      have ih := indexOf_lt_iff_mem_dropLast (b :: t) hnd2 f hf
      rw [List.indexOf_cons, hab, cond_false, List.dropLast_cons₂, List.mem_cons]
      constructor
      · intro h
        refine Or.inr (ih.1 ?_)
        simp only [List.length_cons] at h ⊢
        omega
      · rintro (he | h)
        · exact absurd he hfa
        · have h2 := ih.2 h
          simp only [List.length_cons] at h2 ⊢
          omega

/-- C7: over a duplicate-free batch, the 1000ms pacing delay occurs in a
file's loop iteration exactly when the run is real (not dry-run), the
file's submission succeeded, and the file is not the last of the batch;
and a dry-run loop trace never contains a delay event. -/
theorem pacing_delay_iff (env : Env) (fp dr : Bool) (allFiles : List String)
    (hnd : allFiles.Nodup) (f : String) (hf : f ∈ allFiles) :
    (Event.delay 1000 ∈ (fileStep env allFiles fp dr f).2 ↔
      dr = false ∧ (∃ obj, (publishToDevTo env f fp dr).1 = Except.ok obj)
        ∧ f ∈ allFiles.dropLast)
    ∧ (∀ files, Event.delay 1000 ∉ (runLoop env allFiles fp true files).2) := by
  refine ⟨?_, ?_⟩
  · cases dr with
    | true =>
      rcases hpair : publishToDevTo env f fp true with ⟨r, evs⟩
      have hnev : Event.delay 1000 ∉ evs := by
        have h := publish_no_delay env f fp true 1000
        rw [hpair] at h
        exact h
      cases r with
      | error msg => simp [fileStep, hpair, hnev]
      | ok obj => simp [fileStep, hpair, hnev]
    | false =>
      rcases hpair : publishToDevTo env f fp false with ⟨r, evs⟩
      have hnev : Event.delay 1000 ∉ evs := by
        have h := publish_no_delay env f fp false 1000
        rw [hpair] at h
        exact h
      cases r with
      | error msg => simp [fileStep, hpair, hnev]
      | ok obj =>
        have hiff := indexOf_lt_iff_mem_dropLast allFiles hnd f hf
        by_cases hlt : allFiles.indexOf f < allFiles.length - 1
        · simp [fileStep, hpair, hnev, hlt, hiff.1 hlt]
        · simp [fileStep, hpair, hnev, hlt]
          exact fun hmem => hlt (hiff.2 hmem)
  · intro files
    induction files with
    | nil => simp [runLoop]
    | cons g rest ih =>
      rcases hpair : publishToDevTo env g fp true with ⟨r, evs⟩
      have hnev : Event.delay 1000 ∉ evs := by
        have h := publish_no_delay env g fp true 1000
        rw [hpair] at h
        exact h
      cases r with
      | error msg => simp [runLoop, fileStep, hpair, hnev, ih]
      | ok obj => simp [runLoop, fileStep, hpair, hnev, ih]

/-- C7 witness: processing the first of the three sample files in a real
run emits the 1000ms delay. -/
theorem pacing_delay_iff_witness :
    Event.delay 1000 ∈ (fileStep sampleEnv
      ["posts/alpha.md", "posts/beta.md", "posts/gamma.md"] false false "posts/alpha.md").2 :=
  ((pacing_delay_iff sampleEnv false false
      ["posts/alpha.md", "posts/beta.md", "posts/gamma.md"] (by decide)
      "posts/alpha.md" (by decide)).1).2
    ⟨rfl, ⟨[("url", JVal.str "https://dev.to/u/a-1"), ("title", JVal.str "Remote Title"),
        ("id", JVal.num 41), ("published", JVal.bool true)], by rfl⟩, by decide⟩

/-- C8: with a credential supplied, a missing posts directory or an empty
markdown discovery short-circuits the run with published-count 0 and an
empty article list, a warning (missing directory) or informational notice
(no files), the zero-valued outputs, and no fatal failure. -/
theorem discovery_shortcircuit (env : Env) (cfg : Config) (k : String)
    (hk : cfg.apiKey = some k) :
    (env.dirExists cfg.postsDirectory = false →
      (runAction env cfg).publishedCount = 0
      ∧ (runAction env cfg).articles = []
      ∧ Event.warning ("Posts directory " ++ cfg.postsDirectory ++ " not found")
          ∈ (runAction env cfg).events
      ∧ Event.setOutputCount 0 ∈ (runAction env cfg).events
      ∧ Event.setOutputArticles [] ∈ (runAction env cfg).events
      ∧ ∀ m, Event.setFailed m ∉ (runAction env cfg).events)
    ∧ (env.dirExists cfg.postsDirectory = true →
      mdFiles env cfg.postsDirectory = [] →
      (runAction env cfg).publishedCount = 0
      ∧ (runAction env cfg).articles = []
      ∧ Event.info "No markdown files found" ∈ (runAction env cfg).events
      ∧ Event.setOutputCount 0 ∈ (runAction env cfg).events
      ∧ Event.setOutputArticles [] ∈ (runAction env cfg).events
      ∧ ∀ m, Event.setFailed m ∉ (runAction env cfg).events) := by
  constructor
  · intro hd
    simp [runAction, hk, hd]
  · intro hd hmt
    simp [runAction, hk, hd, hmt]

/-- C8 witness: the missing-directory and no-markdown environments both
yield a zero published-count. -/
theorem discovery_shortcircuit_witness :
    (runAction noDirEnv plainCfg).publishedCount = 0
    ∧ (runAction mtDirEnv plainCfg).publishedCount = 0 :=
  ⟨((discovery_shortcircuit noDirEnv plainCfg "secret" rfl).1 rfl).1,
   ((discovery_shortcircuit mtDirEnv plainCfg "secret" rfl).2 rfl rfl).1⟩

/-- C9 counterexample: the article entry of a dry-run batch has no
published field at all — lookup of published on it is none — refuting
that every serialized element carries url, title, id and published. -/
theorem dryrun_entry_lacks_published_cex :
    (runAction dryEnv dryCfg).articles
      = [[("url", JVal.str "dry-run-url"), ("title", JVal.str "Alpha"),
          ("id", JVal.str "dry-run")]]
    ∧ (([("url", JVal.str "dry-run-url"), ("title", JVal.str "Alpha"),
          ("id", JVal.str "dry-run")] : ArticleObj).lookup "published") = none :=
  ⟨by rfl, by rfl⟩

/-- C9 amended: every element of the run's article list has url, title
and id fields; real-run entries additionally carry the published field;
dry-run entries carry the placeholder url dry-run-url and id dry-run and
omit the published field. -/
theorem articles_entry_shape (env : Env) (cfg : Config) (obj : ArticleObj)
    (hobj : obj ∈ (runAction env cfg).articles) :
    (obj.lookup "url").isSome ∧ (obj.lookup "title").isSome ∧ (obj.lookup "id").isSome
    ∧ (cfg.dryRun = false → (obj.lookup "published").isSome)
    ∧ (cfg.dryRun = true → obj.lookup "url" = some (JVal.str "dry-run-url")
        ∧ obj.lookup "id" = some (JVal.str "dry-run")
        ∧ obj.lookup "published" = none) := by
  have hloop : ∃ f, (publishToDevTo env f cfg.forcePublished cfg.dryRun).1
      = Except.ok obj := by
    cases hk : cfg.apiKey with
    | none => simp [runAction, hk] at hobj
    | some k =>
      by_cases hd : env.dirExists cfg.postsDirectory
      · by_cases hmt : (mdFiles env cfg.postsDirectory).isEmpty
        · simp [runAction, hk, hd, hmt] at hobj
        · simp only [runAction, hk, hd, hmt] at hobj
          simp at hobj
          rcases runLoop_mem_ok hobj with ⟨f, _, hf⟩
          exact ⟨f, hf⟩
      · simp [runAction, hk, hd] at hobj
  rcases hloop with ⟨f, hf⟩
  rcases publish_ok_shape hf with ⟨hdr, t, rfl⟩ | ⟨hdr, resp, rfl⟩
  · refine ⟨by rfl, by rfl, by rfl, ?_, ?_⟩
    · intro h
      rw [hdr] at h
      exact Bool.noConfusion h
    · intro _
      exact ⟨rfl, rfl, rfl⟩
  · refine ⟨by rfl, by rfl, by rfl, ?_, ?_⟩
    · intro _
      rfl
    · intro h
      rw [hdr] at h
      exact Bool.noConfusion h

/-- C9 amended witness: the concrete dry-run entry has a url field. -/
theorem articles_entry_shape_witness :
    (([("url", JVal.str "dry-run-url"), ("title", JVal.str "Alpha"),
        ("id", JVal.str "dry-run")] : ArticleObj).lookup "url").isSome :=
  (articles_entry_shape dryEnv dryCfg
      [("url", JVal.str "dry-run-url"), ("title", JVal.str "Alpha"),
        ("id", JVal.str "dry-run")]
      (by
        have h : (runAction dryEnv dryCfg).articles
            = [[("url", JVal.str "dry-run-url"), ("title", JVal.str "Alpha"),
                ("id", JVal.str "dry-run")]] := rfl
        rw [h]
        exact List.mem_singleton_self _)).1

end DevTo
